import Mathlib

/-!
Shallow embedding of the Stock_Bro indicator engine
(`src/stock_bro/analysis/technical.py`) and prediction pipeline
(`src/stock_bro/ai/predictor.py`).

Modelling conventions:
* floats are modelled as exact rationals (`ℚ`);
* pandas `NaN` (an undefined position of an indicator series) is `none`;
* the float square root is modelled by `Rat.sqrt` (total, nonnegative on
  nonnegative inputs, exact on perfect squares);
* non-finite results of a division by zero (`inf`) are modelled as `none`,
  i.e. folded into the undefined marker, except where the source's formula
  gives them a definite finite meaning (the RSI `loss = 0` branch, where the
  float computation yields exactly `100`);
* a raised Python exception is an `Except.error`.
-/

namespace StockBro

/-- `np.mean` of a list of rationals: sum divided by length. -/
def npMean (xs : List ℚ) : ℚ := xs.sum / xs.length

/-- `np.std` (population standard deviation, `ddof = 0`), float square root
modelled by `Rat.sqrt`. -/
def npStd (xs : List ℚ) : ℚ :=
  Rat.sqrt (((xs.map fun a => (a - npMean xs) ^ 2).sum) / xs.length)

/-- pandas `Series.rolling(window=w).mean()` with the default
`min_periods = w`: position `i` holds the mean of the trailing `w` values
when `i + 1 ≥ w`, and `NaN` (here `none`) before the window is full. -/
def rollingMean (xs : List ℚ) (w : ℕ) : List (Option ℚ) :=
  (List.range xs.length).map fun i =>
    if w ≤ i + 1 then some (npMean ((xs.drop (i + 1 - w)).take w)) else none

/-- pandas `Series.rolling(window=w).std()` (sample standard deviation,
`ddof = 1`).  For `w = 1` the `0/0` variance is `NaN` in pandas, hence
`none` here. -/
def rollingStd (xs : List ℚ) (w : ℕ) : List (Option ℚ) :=
  (List.range xs.length).map fun i =>
    if w ≤ i + 1 then
      if w ≤ 1 then none
      else
        let vals := (xs.drop (i + 1 - w)).take w
        some (Rat.sqrt (((vals.map fun a => (a - npMean vals) ^ 2).sum) / (w - 1 : ℕ)))
    else none

/-- pandas `Series.ewm(span=s).mean()` with the default `adjust = True`:
position `i` holds the weighted mean of the prefix with weights
`(1-α)^(i-j)`, `α = 2/(s+1)`.  Every position of a nonempty series is
defined. -/
def ewmMean (xs : List ℚ) (span : ℕ) : List (Option ℚ) :=
  let a : ℚ := 2 / (span + 1)
  (List.range xs.length).map fun i =>
    let pre := xs.take (i + 1)
    let ws := (List.range (i + 1)).map fun j => (1 - a) ^ (i - j)
    some ((List.zipWith (fun w x => w * x) ws pre).sum / ws.sum)

/-- pandas `Series.diff()`: `NaN` at position 0, then successive
differences. -/
def diffList (xs : List ℚ) : List (Option ℚ) :=
  match xs with
  | [] => []
  | _ :: t => none :: List.zipWith (fun a b => some (b - a)) xs t

/-- pandas `Series.pct_change()`: `NaN` at position 0, then
`(x[i] - x[i-1]) / x[i-1]`. -/
def pctChange (xs : List ℚ) : List (Option ℚ) :=
  match xs with
  | [] => []
  | _ :: t => none :: List.zipWith (fun a b => some ((b - a) / a)) xs t

/-- `delta.where(delta > 0, 0)` applied to `diff`: the positive part of each
difference; the leading `NaN` compares false and becomes `0`. -/
def rsiGains (closes : List ℚ) : List ℚ :=
  (diffList closes).map fun o =>
    match o with
    | some d => if 0 < d then d else 0
    | none => 0

/-- `-delta.where(delta < 0, 0)` applied to `diff`: minus the negative part
of each difference; the leading `NaN` compares false and becomes `0`. -/
def rsiLosses (closes : List ℚ) : List ℚ :=
  (diffList closes).map fun o =>
    match o with
    | some d => if d < 0 then -d else 0
    | none => 0

/-- One position of `rsi = 100 - 100/(1 + gain/loss)` in float semantics:
`loss = 0, gain ≠ 0` gives `rs = ±inf` and hence exactly `100`;
`loss = 0, gain = 0` gives `rs = NaN` and hence an undefined position;
positions where `gain` or `loss` is still `NaN` stay undefined. -/
def rsiCombine (go lo : Option ℚ) : Option ℚ :=
  match go, lo with
  | some g, some l =>
      if l = 0 then (if g = 0 then none else some 100)
      else some (100 - 100 / (1 + g / l))
  | _, _ => none

/-- `TechnicalAnalyzer.calculate_sma` (`technical.py:17`): a trailing rolling
mean of the close column. -/
def calculate_sma (closes : List ℚ) (window : ℕ) : List (Option ℚ) :=
  rollingMean closes window

/-- `TechnicalAnalyzer.calculate_ema` (`technical.py:31`). -/
def calculate_ema (closes : List ℚ) (window : ℕ) : List (Option ℚ) :=
  ewmMean closes window

/-- `TechnicalAnalyzer.calculate_rsi` (`technical.py:45`): rolling means of
gains and losses, combined by `100 - 100/(1 + gain/loss)`.
`StockPredictor.prepare_features` inlines the identical formula
(`predictor.py:46-50`). -/
def calculate_rsi (closes : List ℚ) (window : ℕ) : List (Option ℚ) :=
  List.zipWith rsiCombine
    (rollingMean (rsiGains closes) window)
    (rollingMean (rsiLosses closes) window)

/-- Result of `TechnicalAnalyzer.calculate_bollinger_bands`. -/
structure BollingerBands where
  upper : List (Option ℚ)
  middle : List (Option ℚ)
  lower : List (Option ℚ)

/-- `TechnicalAnalyzer.calculate_bollinger_bands` (`technical.py:100`):
`middle = sma(window)`, `upper/lower = middle ± std(window) * num_std`,
with `NaN` propagating through the arithmetic. -/
def calculate_bollinger_bands (closes : List ℚ) (window : ℕ) (num_std : ℚ) :
    BollingerBands :=
  let sma := calculate_sma closes window
  let std := rollingStd closes window
  { upper := List.zipWith (fun s d =>
      match s, d with
      | some a, some b => some (a + b * num_std)
      | _, _ => none) sma std
    middle := sma
    lower := List.zipWith (fun s d =>
      match s, d with
      | some a, some b => some (a - b * num_std)
      | _, _ => none) sma std }

/-- Errors raised by the embedded code (Python `ValueError` / `IndexError` /
sklearn `NotFittedError`), named after the spec's taxonomy. -/
inductive AnalysisError where
  | notTrained
  | insufficientData
  | indexError
  | notFitted
deriving DecidableEq

/-- Float `>` on possibly-`NaN` values: any comparison with `NaN` is false. -/
def floatGt (a b : Option ℚ) : Bool :=
  match a, b with
  | some x, some y => decide (y < x)
  | _, _ => false

/-- Result dictionary of `TechnicalAnalyzer.analyze_trend`. -/
structure TrendResult where
  trend : String
  strength : ℚ
  price_change_pct : ℚ
  sma_short : Option ℚ
  sma_long : Option ℚ
deriving DecidableEq

/-- `TechnicalAnalyzer.analyze_trend` (`technical.py:164`): compares the last
values of `sma(window // 2)` and `sma(window)` (a comparison against `NaN`
is false, so too-short histories fall through to `"neutral"`), then reads
`Close.iloc[-1]` and `Close.iloc[-window]`; the latter raises `IndexError`
when the series holds fewer than `window` bars. -/
def analyze_trend (closes : List ℚ) (window : ℕ) : Except AnalysisError TrendResult :=
  let smaShort := calculate_sma closes (window / 2)
  let smaLong := calculate_sma closes window
  match smaShort.getLast?, smaLong.getLast? with
  | some cs, some cl =>
      let trend : String :=
        if floatGt cs cl then r"bullish"
        else if floatGt cl cs then r"bearish"
        else r"neutral"
      if window ≤ closes.length then
        match closes.getLast?, closes[closes.length - window]? with
        | some last, some base =>
            let pc := (last - base) / base
            .ok ⟨trend, |pc|, pc * 100, cs, cl⟩
        | _, _ => .error .indexError
      else .error .indexError
  | _, _ => .error .indexError

/-! ## The prediction pipeline (`ai/predictor.py`) -/

/-- A pandas DataFrame of stock data, reduced to what the pipeline reads:
the raw `Close` and `Volume` columns and the mutable set of derived
indicator columns, addressed by name.  Column assignment is modelled by
updating `extra`. -/
structure Frame where
  close : List ℚ
  volume : List ℚ
  extra : String → Option (List (Option ℚ))

/-- `data[name] = vals`: in-place column assignment, modelled functionally
by returning the updated frame. -/
def setCol (f : Frame) (name : String) (vals : List (Option ℚ)) : Frame :=
  { f with extra := fun s => if s = name then some vals else f.extra s }

/-- The feature column names installed by `prepare_features`
(`predictor.py:60-63`).  `volume_sma` is written to the frame but not used
as a feature. -/
def featureColumnNames : List String :=
  [r"sma_5", r"sma_10", r"sma_20", r"ema_12", r"ema_26",
   r"rsi", r"volume_ratio", r"price_change", r"volatility"]

/-- All column names written into the caller's DataFrame by
`prepare_features` (`predictor.py:39-58`), in write order. -/
def writtenColumnNames : List String :=
  [r"sma_5", r"sma_10", r"sma_20", r"ema_12", r"ema_26",
   r"rsi", r"volume_sma", r"volume_ratio", r"price_change", r"volatility"]

/-- `data['Volume'] / data['volume_sma']`.  Where `volume_sma` is `NaN` the
quotient is `NaN`; a zero denominator yields a non-finite float, also
modelled as undefined. -/
def volumeRatio (volume : List ℚ) (vsma : List (Option ℚ)) : List (Option ℚ) :=
  List.zipWith (fun v os =>
    os.bind fun s => if s = 0 then none else some (v / s)) volume vsma

/-- The indicator-column writes of `prepare_features`
(`predictor.py:39-58`), applied to the caller's frame in place. -/
def addFeatureColumns (f : Frame) : Frame :=
  let c := f.close
  let f := setCol f r"sma_5" (rollingMean c 5)
  let f := setCol f r"sma_10" (rollingMean c 10)
  let f := setCol f r"sma_20" (rollingMean c 20)
  let f := setCol f r"ema_12" (ewmMean c 12)
  let f := setCol f r"ema_26" (ewmMean c 26)
  let f := setCol f r"rsi" (calculate_rsi c 14)
  let vsma := rollingMean f.volume 20
  let f := setCol f r"volume_sma" vsma
  let f := setCol f r"volume_ratio" (volumeRatio f.volume vsma)
  let f := setCol f r"price_change" (pctChange c)
  let f := setCol f r"volatility" (rollingStd c 20)
  f

/-- `np.mean` over a window that may contain `NaN`: `NaN` propagates, and the
mean of an empty window is `NaN`. -/
def npOptMean (xs : List (Option ℚ)) : Option ℚ :=
  match xs.mapM id with
  | some ys => if ys = [] then none else some (npMean ys)
  | none => none

/-- `np.std` over a window that may contain `NaN`. -/
def npOptStd (xs : List (Option ℚ)) : Option ℚ :=
  match xs.mapM id with
  | some ys => if ys = [] then none else some (npStd ys)
  | none => none

/-- The `[np.mean(values), np.std(values), values[-1]]` block of
`prepare_features` (`predictor.py:72-76`). -/
def windowAgg (vals : List (Option ℚ)) : List (Option ℚ) :=
  [npOptMean vals, npOptStd vals, (vals.getLast?).join]

/-- One feature row of `prepare_features` (`predictor.py:68-78`): for each
feature column present in the frame, the `(mean, std, last)` aggregation of
the window `[i - lookback, i)`. -/
def featureRow (f : Frame) (lookback i : ℕ) : List (Option ℚ) :=
  (featureColumnNames.map fun col =>
    match f.extra col with
    | some vals => windowAgg ((vals.drop (i - lookback)).take lookback)
    | none => []).flatten

/-- The target at position `i` (`predictor.py:80-84`):
`(close[i+1] - close[i]) / close[i]`. -/
def targetAt (closes : List ℚ) (i : ℕ) : ℚ :=
  match closes[i]?, closes[i + 1]? with
  | some cp, some nx => (nx - cp) / cp
  | _, _ => 0

/-- `StockPredictor.prepare_features` (`predictor.py:24-86`): writes the
indicator columns into the caller's frame, then builds one
(feature row, target) pair for every `i` in `range(lookback, n - 1)`.
Returns the mutated frame together with features and targets. -/
def prepare_features (f : Frame) (lookback : ℕ) :
    Frame × List (List (Option ℚ)) × List ℚ :=
  let fr := addFeatureColumns f
  let idxs := List.range' lookback (f.close.length - 1 - lookback)
  (fr, idxs.map (featureRow fr lookback), idxs.map (targetAt f.close))

/-- The fitted ensemble regressor (`sklearn.ensemble.RandomForestRegressor`),
abstracted to its two observable capabilities: predicting from a scaled
feature row and exposing per-feature importances. -/
structure RandomForest where
  predictFn : List (Option ℚ) → ℚ
  featureImportances : List ℚ

/-- The library's fitting procedure, abstracted as a function from scaled
training data to a fitted forest; the theorems below hold for every such
function. -/
def RFFit : Type :=
  List (List (Option ℚ)) → List ℚ → RandomForest

/-- Fitted `StandardScaler` state: per-feature `(mean, scale)`. -/
def ScalerParams : Type := List (ℚ × ℚ)

/-- `StandardScaler.fit`: per-feature mean and standard deviation over the
defined entries (sklearn ignores `NaN` when fitting), with a zero standard
deviation replaced by `1` (sklearn's `_handle_zeros_in_scale`). -/
def scalerFit (rows : List (List (Option ℚ))) : ScalerParams :=
  (rows.transpose).map fun col =>
    let ys := col.filterMap id
    let s := npStd ys
    (npMean ys, if s = 0 then 1 else s)

/-- `StandardScaler.transform` of one row: `(x - mean) / scale` per feature,
`NaN` preserved. -/
def scalerTransform (ps : ScalerParams) (row : List (Option ℚ)) : List (Option ℚ) :=
  List.zipWith (fun x ms => x.map fun a => (a - ms.1) / ms.2) row ps

/-- `sklearn.model_selection.train_test_split(X, y, test_size=t,
shuffle=False)`: the last `ceil(t * n)` rows are the test split and the
first `n - ceil(t * n)` rows the train split, in original order. -/
def train_test_split {α β : Type} (X : List α) (y : List β) (t : ℚ) :
    List α × List α × List β × List β :=
  let nTest := (⌈t * X.length⌉).toNat
  let nTrain := X.length - nTest
  (X.take nTrain, X.drop nTrain, y.take nTrain, y.drop nTrain)

/-- Mean squared error. -/
def mseQ (ys ps : List ℚ) : ℚ :=
  npMean (List.zipWith (fun a b => (a - b) ^ 2) ys ps)

/-- Mean absolute error. -/
def maeQ (ys ps : List ℚ) : ℚ :=
  npMean (List.zipWith (fun a b => |a - b|) ys ps)

/-- The metrics dictionary returned by `StockPredictor.train`
(`predictor.py:129-136`). -/
structure TrainMetrics where
  train_mse : ℚ
  test_mse : ℚ
  train_mae : ℚ
  test_mae : ℚ
  train_samples : ℕ
  test_samples : ℕ

/-- The mutable state of a `StockPredictor` instance: the installed model
(`None` until a successful `train`), the scaler state (`none` = not yet
fitted) and the `feature_columns` list. -/
structure StockPredictor where
  model : Option RandomForest
  scalerParams : Option ScalerParams
  feature_columns : List String

/-- `StockPredictor.__init__` (`predictor.py:18-22`). -/
def StockPredictor.initial : StockPredictor :=
  ⟨none, none, []⟩

/-- The prediction dictionary returned by `StockPredictor.predict`
(`predictor.py:175-181`). -/
structure Prediction where
  current_price : ℚ
  predicted_change_pct : ℚ
  predicted_price : ℚ
  confidence : ℚ
  direction : String

/-- `StockPredictor.train` (`predictor.py:88-139`): builds features (mutating
the input frame and `self.feature_columns`), raises when fewer than 50
feature rows exist, otherwise splits without shuffling, fits the scaler on
the train split, fits the forest, and installs the new model.  The fitting
procedure of the ensemble library is passed in as `fitF`. -/
def train (p : StockPredictor) (fitF : RFFit) (f : Frame) (test_size : ℚ) :
    StockPredictor × Frame × Except AnalysisError TrainMetrics :=
  let res := prepare_features f 30
  let fr := res.1
  let X := res.2.1
  let y := res.2.2
  let p1 := { p with feature_columns := featureColumnNames }
  if X.length < 50 then (p1, fr, .error .insufficientData)
  else
    let split := train_test_split X y test_size
    let Xtr := split.1
    let Xte := split.2.1
    let ytr := split.2.2.1
    let yte := split.2.2.2
    let ps := scalerFit Xtr
    let XtrS := Xtr.map (scalerTransform ps)
    let XteS := Xte.map (scalerTransform ps)
    let m := fitF XtrS ytr
    let trainPred := XtrS.map m.predictFn
    let testPred := XteS.map m.predictFn
    ({ p1 with model := some m, scalerParams := some ps },
     fr,
     .ok ⟨mseQ ytr trainPred, mseQ yte testPred,
          maeQ ytr trainPred, maeQ yte testPred, Xtr.length, Xte.length⟩)

/-- `StockPredictor.predict` (`predictor.py:141-181`): raises before any
successful train; otherwise builds features for the input frame (mutating
it), scales the most recent row, and returns the prediction dictionary with
`confidence = min(mean(feature_importances) * 100, 95)` and
`direction = "up" if r > 0 else "down"`. -/
def predict (p : StockPredictor) (f : Frame) :
    StockPredictor × Frame × Except AnalysisError Prediction :=
  match p.model with
  | none => (p, f, .error .notTrained)
  | some m =>
    let res := prepare_features f 30
    let fr := res.1
    let X := res.2.1
    let p1 := { p with feature_columns := featureColumnNames }
    match X.getLast? with
    | none => (p1, fr, .error .insufficientData)
    | some latest =>
      match p.scalerParams with
      | none => (p1, fr, .error .notFitted)
      | some ps =>
        let scaled := scalerTransform ps latest
        let r := m.predictFn scaled
        let conf := min (npMean m.featureImportances * 100) 95
        match f.close.getLast? with
        | none => (p1, fr, .error .indexError)
        | some cp =>
          (p1, fr, .ok ⟨cp, r * 100, cp * (1 + r), conf,
                        if 0 < r then r"up" else r"down"⟩)

/-! ## Basic lemmas about the rolling aggregations -/

theorem length_rollingMean (xs : List ℚ) (w : ℕ) :
    (rollingMean xs w).length = xs.length := by
  simp [rollingMean]

theorem rollingMean_getElem (xs : List ℚ) (w i : ℕ) (h : i < xs.length) :
    (rollingMean xs w)[i]? =
      some (if w ≤ i + 1 then some (npMean ((xs.drop (i + 1 - w)).take w)) else none) := by
  simp [rollingMean, List.getElem?_map, List.getElem?_range h]

theorem length_rollingStd (xs : List ℚ) (w : ℕ) :
    (rollingStd xs w).length = xs.length := by
  simp [rollingStd]

theorem rollingStd_getElem (xs : List ℚ) (w i : ℕ) (h : i < xs.length) :
    (rollingStd xs w)[i]? =
      some (if w ≤ i + 1 then
              if w ≤ 1 then none
              else
                some (Rat.sqrt (((((xs.drop (i + 1 - w)).take w).map
                  fun a => (a - npMean ((xs.drop (i + 1 - w)).take w)) ^ 2).sum) / (w - 1 : ℕ)))
            else none) := by
  simp [rollingStd, List.getElem?_map, List.getElem?_range h]

theorem npMean_nonneg {xs : List ℚ} (h : ∀ a ∈ xs, 0 ≤ a) : 0 ≤ npMean xs :=
  div_nonneg (List.sum_nonneg h) (Nat.cast_nonneg _)

/-- A defined value of a rolling mean over a nonnegative series is
nonnegative. -/
theorem rollingMean_defined_nonneg {xs : List ℚ} {w i : ℕ} {v : ℚ}
    (hx : ∀ a ∈ xs, 0 ≤ a) (h : (rollingMean xs w)[i]? = some (some v)) : 0 ≤ v := by
  rw [rollingMean, List.getElem?_map] at h
  cases hi : (List.range xs.length)[i]? with
  | none => rw [hi] at h; simp at h
  | some j =>
    rw [hi] at h
    simp only [Option.map_some'] at h
    split at h
    · obtain rfl : npMean ((xs.drop (j + 1 - w)).take w) = v := by
        simpa using h
      exact npMean_nonneg fun a ha =>
        hx a (List.mem_of_mem_drop (List.mem_of_mem_take ha))
    · simp at h

/-- A defined value of a rolling standard deviation is nonnegative. -/
theorem rollingStd_defined_nonneg {xs : List ℚ} {w i : ℕ} {v : ℚ}
    (h : (rollingStd xs w)[i]? = some (some v)) : 0 ≤ v := by
  rw [rollingStd, List.getElem?_map] at h
  cases hi : (List.range xs.length)[i]? with
  | none => rw [hi] at h; simp at h
  | some j =>
    rw [hi] at h
    simp only [Option.map_some'] at h
    split at h
    · split at h
      · simp at h
      · obtain rfl : Rat.sqrt _ = v := by simpa using h
        exact Rat.sqrt_nonneg _
    · simp at h

theorem rsiGains_nonneg (closes : List ℚ) : ∀ a ∈ rsiGains closes, 0 ≤ a := by
  intro a ha
  rw [rsiGains, List.mem_map] at ha
  obtain ⟨o, _, rfl⟩ := ha
  cases o with
  | none => exact le_refl 0
  | some d =>
    by_cases hd : 0 < d
    · simpa [hd] using hd.le
    · simp [hd]

theorem rsiLosses_nonneg (closes : List ℚ) : ∀ a ∈ rsiLosses closes, 0 ≤ a := by
  intro a ha
  rw [rsiLosses, List.mem_map] at ha
  obtain ⟨o, _, rfl⟩ := ha
  cases o with
  | none => exact le_refl 0
  | some d =>
    by_cases hd : d < 0
    · simp only [hd, if_pos]
      linarith
    · simp [hd]

/-! ## Claims C5, C6, C7: the indicator engine -/

/-- C5: for every series of length `n` and every SMA window `1 ≤ w ≤ n`, the
SMA series is aligned 1:1 with the input, its first `w - 1` positions are
undefined, and every position at index `≥ w - 1` holds a defined value. -/
theorem claim_C5 (closes : List ℚ) (w : ℕ) (h1 : 1 ≤ w) (h2 : w ≤ closes.length) :
    (calculate_sma closes w).length = closes.length ∧
    (∀ i, i < w - 1 → (calculate_sma closes w)[i]? = some none) ∧
    (∀ i, w - 1 ≤ i → i < closes.length →
       ∃ q, (calculate_sma closes w)[i]? = some (some q)) := by
  refine ⟨length_rollingMean closes w, ?_, ?_⟩
  · intro i hi
    have hin : i < closes.length := by omega
    rw [calculate_sma, rollingMean_getElem closes w i hin, if_neg (by omega)]
  · intro i hi hin
    rw [calculate_sma, rollingMean_getElem closes w i hin, if_pos (by omega)]
    exact ⟨_, rfl⟩

/-- Witness for C5 at the concrete series `[1, 2, 3]` with window `2`. -/
theorem claim_C5_witness :
    (calculate_sma [(1 : ℚ), 2, 3] 2)[0]? = some none ∧
    ∃ q, (calculate_sma [(1 : ℚ), 2, 3] 2)[1]? = some (some q) := by
  have h := claim_C5 [(1 : ℚ), 2, 3] 2 (by decide) (by decide)
  exact ⟨h.2.1 0 (by decide), h.2.2 1 (by decide) (by decide)⟩

/-- C6: every defined RSI value lies in `[0, 100]`; where the windowed
average loss is `0` and the average gain is positive the RSI is exactly
`100`; where both are `0` the position is undefined. -/
theorem claim_C6 (closes : List ℚ) (w : ℕ) (_hw : 1 ≤ w) :
    (∀ (i : ℕ) (q : ℚ), (calculate_rsi closes w)[i]? = some (some q) → 0 ≤ q ∧ q ≤ 100) ∧
    (∀ (i : ℕ) (g l : ℚ),
       (rollingMean (rsiGains closes) w)[i]? = some (some g) →
       (rollingMean (rsiLosses closes) w)[i]? = some (some l) →
       (l = 0 → 0 < g → (calculate_rsi closes w)[i]? = some (some 100)) ∧
       (l = 0 → g = 0 → (calculate_rsi closes w)[i]? = some none)) := by
  constructor
  · intro i q h
    rw [calculate_rsi, List.getElem?_zipWith_eq_some] at h
    obtain ⟨go, lo, hg, hl, hc⟩ := h
    cases go with
    | none => simp [rsiCombine] at hc
    | some g =>
      cases lo with
      | none => simp [rsiCombine] at hc
      | some l =>
        have hg0 : 0 ≤ g := rollingMean_defined_nonneg (rsiGains_nonneg closes) hg
        have hl0 : 0 ≤ l := rollingMean_defined_nonneg (rsiLosses_nonneg closes) hl
        rw [rsiCombine] at hc
        split at hc
        · split at hc
          · simp at hc
          · obtain rfl : (100 : ℚ) = q := by simpa using hc
            norm_num
        · obtain rfl : 100 - 100 / (1 + g / l) = q := by simpa using hc
          have hlpos : 0 < l := lt_of_le_of_ne hl0 (by
            intro hh
            exact (by assumption : ¬ l = 0) hh.symm)
          have hgl : 0 ≤ g / l := div_nonneg hg0 hlpos.le
          have h1 : (1 : ℚ) ≤ 1 + g / l := by linarith
          have hdle : 100 / (1 + g / l) ≤ 100 := div_le_self (by norm_num) h1
          have hdpos : 0 < 100 / (1 + g / l) := div_pos (by norm_num) (by linarith)
          constructor <;> linarith
  · intro i g l hg hl
    constructor
    · intro hl0 hg0
      rw [calculate_rsi, List.getElem?_zipWith', hg, hl]
      simp [rsiCombine, hl0, ne_of_gt hg0]
    · intro hl0 hg0
      rw [calculate_rsi, List.getElem?_zipWith', hg, hl]
      simp [rsiCombine, hl0, hg0]

/-- Witness for C6: on `[1, 2]` with window `1` the RSI at position 1 is a
defined value (in fact `100`), and it obeys the `[0, 100]` bounds. -/
theorem claim_C6_witness :
    (calculate_rsi [(1 : ℚ), 2] 1)[1]? = some (some 100) ∧
    (0 : ℚ) ≤ 100 ∧ (100 : ℚ) ≤ 100 := by
  have h := claim_C6 [(1 : ℚ), 2] 1 (by decide)
  have h1 : (rollingMean (rsiGains [(1 : ℚ), 2]) 1)[1]? = some (some 1) := by
    rw [rollingMean_getElem _ _ 1 (by simp [rsiGains, diffList])]
    norm_num [rsiGains, diffList, npMean]
  have h2 : (rollingMean (rsiLosses [(1 : ℚ), 2]) 1)[1]? = some (some 0) := by
    rw [rollingMean_getElem _ _ 1 (by simp [rsiLosses, diffList])]
    norm_num [rsiLosses, diffList, npMean]
  have e : (calculate_rsi [(1 : ℚ), 2] 1)[1]? = some (some 100) :=
    ((h.2 1 1 0 h1 h2).1 rfl (by norm_num))
  exact ⟨e, h.1 1 100 e⟩

/-- C7: for every series, window and `num_std ≥ 0`, the Bollinger bands
satisfy `lower ≤ middle ≤ upper` at every position where they are defined,
and for windows `≥ 2` all three bands are defined (and so ordered) at every
position from the warm-up boundary `window - 1` on. -/
theorem claim_C7 (closes : List ℚ) (w : ℕ) (k : ℚ) (hk : 0 ≤ k) :
    (∀ (i : ℕ) (u m l : ℚ),
       (calculate_bollinger_bands closes w k).upper[i]? = some (some u) →
       (calculate_bollinger_bands closes w k).middle[i]? = some (some m) →
       (calculate_bollinger_bands closes w k).lower[i]? = some (some l) →
       l ≤ m ∧ m ≤ u) ∧
    (∀ i, 2 ≤ w → w - 1 ≤ i → i < closes.length →
       ∃ u m l,
         (calculate_bollinger_bands closes w k).upper[i]? = some (some u) ∧
         (calculate_bollinger_bands closes w k).middle[i]? = some (some m) ∧
         (calculate_bollinger_bands closes w k).lower[i]? = some (some l) ∧
         l ≤ m ∧ m ≤ u) := by
  constructor
  · intro i u m l hu hm hl
    simp only [calculate_bollinger_bands, calculate_sma] at hu hm hl
    rw [List.getElem?_zipWith_eq_some] at hu hl
    obtain ⟨s1, d1, hs1, hd1, hc1⟩ := hu
    obtain ⟨s2, d2, hs2, hd2, hc2⟩ := hl
    rw [hm] at hs1 hs2
    obtain rfl : s1 = some m := by simpa using hs1.symm
    obtain rfl : s2 = some m := by simpa using hs2.symm
    rw [hd1] at hd2
    obtain rfl : d1 = d2 := by simpa using hd2
    cases d1 with
    | none => simp at hc1
    | some b =>
      obtain rfl : m + b * k = u := by simpa using hc1
      obtain rfl : m - b * k = l := by simpa using hc2
      have hb : 0 ≤ b := rollingStd_defined_nonneg (v := b) hd1
      have hbk : 0 ≤ b * k := mul_nonneg hb hk
      constructor <;> linarith
  · intro i h2 hwi hin
    have hw1 : w ≤ i + 1 := by omega
    have hsma : (rollingMean closes w)[i]? =
        some (some (npMean ((closes.drop (i + 1 - w)).take w))) := by
      rw [rollingMean_getElem closes w i hin, if_pos hw1]
    have hstd : (rollingStd closes w)[i]? =
        some (some (Rat.sqrt (((((closes.drop (i + 1 - w)).take w).map
          fun a => (a - npMean ((closes.drop (i + 1 - w)).take w)) ^ 2).sum) / (w - 1 : ℕ)))) := by
      rw [rollingStd_getElem closes w i hin, if_pos hw1, if_neg (by omega)]
    have hs0 : 0 ≤ Rat.sqrt (((((closes.drop (i + 1 - w)).take w).map
        fun a => (a - npMean ((closes.drop (i + 1 - w)).take w)) ^ 2).sum) / (w - 1 : ℕ)) :=
      Rat.sqrt_nonneg _
    have hbk : 0 ≤ Rat.sqrt (((((closes.drop (i + 1 - w)).take w).map
        fun a => (a - npMean ((closes.drop (i + 1 - w)).take w)) ^ 2).sum) / (w - 1 : ℕ)) * k :=
      mul_nonneg hs0 hk
    refine ⟨npMean ((closes.drop (i + 1 - w)).take w) +
              Rat.sqrt (((((closes.drop (i + 1 - w)).take w).map
                fun a => (a - npMean ((closes.drop (i + 1 - w)).take w)) ^ 2).sum) / (w - 1 : ℕ)) * k,
            npMean ((closes.drop (i + 1 - w)).take w),
            npMean ((closes.drop (i + 1 - w)).take w) -
              Rat.sqrt (((((closes.drop (i + 1 - w)).take w).map
                fun a => (a - npMean ((closes.drop (i + 1 - w)).take w)) ^ 2).sum) / (w - 1 : ℕ)) * k,
            ?_, ?_, ?_, ?_, ?_⟩
    · simp only [calculate_bollinger_bands, calculate_sma]
      rw [List.getElem?_zipWith', hsma, hstd]
      rfl
    · simp only [calculate_bollinger_bands, calculate_sma]
      exact hsma
    · simp only [calculate_bollinger_bands, calculate_sma]
      rw [List.getElem?_zipWith', hsma, hstd]
      rfl
    · linarith
    · linarith

/-- Witness for C7 at `[1, 2, 3]`, window `2`, `num_std = 2`. -/
theorem claim_C7_witness :
    ∃ u m l,
      (calculate_bollinger_bands [(1 : ℚ), 2, 3] 2 2).upper[1]? = some (some u) ∧
      (calculate_bollinger_bands [(1 : ℚ), 2, 3] 2 2).middle[1]? = some (some m) ∧
      (calculate_bollinger_bands [(1 : ℚ), 2, 3] 2 2).lower[1]? = some (some l) ∧
      l ≤ m ∧ m ≤ u :=
  (claim_C7 [(1 : ℚ), 2, 3] 2 2 (by norm_num)).2 1 (by norm_num) (by norm_num) (by norm_num)

/-! ## Claim C8: trend analysis -/

theorem getLast?_isSome_of_ne_nil {α : Type} {l : List α} (h : l ≠ []) :
    ∃ x, l.getLast? = some x := by
  cases hh : l.getLast? with
  | none => exact absurd (List.getLast?_eq_none_iff.mp hh) h
  | some x => exact ⟨x, rfl⟩

/-- C8, counterexample: the claim asserts that any series with fewer than
`window + 1` bars makes the trend operation fail, but on the two-bar series
`[100, 101]` with `window = 2` (fewer than 3 bars) `analyze_trend`
succeeds: both SMAs and `Close.iloc[-window]` are available as soon as
`window` bars exist, so the code only fails below `window` bars. -/
theorem claim_C8_counterexample :
    analyze_trend [(100 : ℚ), 101] 2 =
      .ok ⟨r"bullish", 1 / 100, 1, some 101, some (201 / 2)⟩ := by
  have hr : List.range 2 = [0, 1] := rfl
  have e1 : calculate_sma [(100 : ℚ), 101] 1 = [some 100, some 101] := by
    simp [calculate_sma, rollingMean, hr, npMean]
  have e2 : calculate_sma [(100 : ℚ), 101] 2 = [none, some (201 / 2)] := by
    simp [calculate_sma, rollingMean, hr, npMean]
    norm_num
  simp only [analyze_trend, e1, e2, List.getLast?]
  norm_num [floatGt, abs]

/-- C8, amended: for `window ≥ 2`, `analyze_trend` fails (with an index
error) exactly when the series holds fewer than `window` bars; with at
least `window` bars it returns a trend that is one of `"bullish"`,
`"bearish"`, `"neutral"` together with a nonnegative strength. -/
theorem claim_C8_amended (closes : List ℚ) (w : ℕ) (hw : 2 ≤ w) :
    (closes.length < w → analyze_trend closes w = .error .indexError) ∧
    (w ≤ closes.length →
       ∃ r, analyze_trend closes w = .ok r ∧
         (r.trend = r"bullish" ∨ r.trend = r"bearish" ∨ r.trend = r"neutral") ∧
         0 ≤ r.strength) := by
  constructor
  · intro hn
    cases closes with
    | nil => rfl
    | cons c cs =>
      have hne1 : calculate_sma (c :: cs) (w / 2) ≠ [] := by
        simp [calculate_sma, rollingMean]
      have hne2 : calculate_sma (c :: cs) w ≠ [] := by
        simp [calculate_sma, rollingMean]
      obtain ⟨s1, hs1⟩ := getLast?_isSome_of_ne_nil hne1
      obtain ⟨s2, hs2⟩ := getLast?_isSome_of_ne_nil hne2
      simp only [analyze_trend, hs1, hs2]
      rw [if_neg (by omega)]
  · intro hn
    have hne : closes ≠ [] := by
      intro h
      subst h
      simp at hn
      omega
    have hne1 : calculate_sma closes (w / 2) ≠ [] := by
      simp [calculate_sma, rollingMean]
      exact hne
    have hne2 : calculate_sma closes w ≠ [] := by
      simp [calculate_sma, rollingMean]
      exact hne
    obtain ⟨s1, hs1⟩ := getLast?_isSome_of_ne_nil hne1
    obtain ⟨s2, hs2⟩ := getLast?_isSome_of_ne_nil hne2
    obtain ⟨last, hlast⟩ := getLast?_isSome_of_ne_nil hne
    obtain ⟨base, hbase⟩ : ∃ b, closes[closes.length - w]? = some b :=
      ⟨_, List.getElem?_eq_getElem (by omega)⟩
    simp only [analyze_trend, hs1, hs2]
    rw [if_pos hn]
    simp only [hlast, hbase]
    refine ⟨_, rfl, ?_, abs_nonneg _⟩
    cases hb1 : floatGt s1 s2 <;> cases hb2 : floatGt s2 s1 <;> simp [hb1, hb2]

/-- Witness for the amended C8: a one-bar series with window 2 fails. -/
theorem claim_C8_witness :
    analyze_trend [(100 : ℚ)] 2 = .error .indexError :=
  (claim_C8_amended [(100 : ℚ)] 2 (by decide)).1 (by decide)

/-! ## Claim C3: the train/test split -/

/-- For a fraction `0 ≤ t ≤ 1`, `n - ceil(t·n)` equals `floor((1-t)·n)`. -/
theorem floor_one_sub_mul (t : ℚ) (n : ℕ) (h0 : 0 ≤ t) (h1 : t ≤ 1) :
    (⌊(1 - t) * (n : ℚ)⌋).toNat = n - (⌈t * (n : ℚ)⌉).toNat ∧
    (⌈t * (n : ℚ)⌉).toNat ≤ n := by
  have hc0 : 0 ≤ ⌈t * (n : ℚ)⌉ := Int.ceil_nonneg (by positivity)
  have hcn : ⌈t * (n : ℚ)⌉ ≤ (n : ℤ) := by
    rw [Int.ceil_le]
    push_cast
    nlinarith [Nat.cast_nonneg (α := ℚ) n]
  have key : ⌊(1 - t) * (n : ℚ)⌋ = (n : ℤ) - ⌈t * (n : ℚ)⌉ := by
    rw [show (1 - t) * (n : ℚ) = -(t * (n : ℚ)) + ((n : ℤ) : ℚ) by push_cast; ring]
    rw [Int.floor_add_int, Int.floor_neg]
    ring
  omega

/-- C3: the split used by `train` (`train_test_split` with `shuffle=False`)
keeps position order: the train split is exactly the first
`⌊(1-t)·n⌋` rows and the test split exactly the remaining rows, in their
original order, and `train`'s reported sample counts agree with that. -/
theorem claim_C3 {α β : Type} (X : List α) (y : List β) (t : ℚ)
    (h0 : 0 ≤ t) (h1 : t ≤ 1) :
    train_test_split X y t =
      (X.take (⌊(1 - t) * (X.length : ℚ)⌋).toNat,
       X.drop (⌊(1 - t) * (X.length : ℚ)⌋).toNat,
       y.take (⌊(1 - t) * (X.length : ℚ)⌋).toNat,
       y.drop (⌊(1 - t) * (X.length : ℚ)⌋).toNat) ∧
    X.take (⌊(1 - t) * (X.length : ℚ)⌋).toNat ++
      X.drop (⌊(1 - t) * (X.length : ℚ)⌋).toNat = X ∧
    (⌊(1 - t) * (X.length : ℚ)⌋).toNat = X.length - (⌈t * (X.length : ℚ)⌉).toNat ∧
    ∀ (p : StockPredictor) (fitF : RFFit) (f : Frame) (p2 : StockPredictor)
      (fr : Frame) (m : TrainMetrics),
      train p fitF f t = (p2, fr, .ok m) →
      m.train_samples =
        (⌊(1 - t) * ((prepare_features f 30).2.1.length : ℚ)⌋).toNat ∧
      m.train_samples + m.test_samples = (prepare_features f 30).2.1.length := by
  obtain ⟨hk, _⟩ := floor_one_sub_mul t X.length h0 h1
  refine ⟨?_, List.take_append_drop _ _, hk, ?_⟩
  · simp only [train_test_split]
    rw [hk]
  · intro p fitF f p2 fr m h
    obtain ⟨hk2, hle2⟩ := floor_one_sub_mul t (prepare_features f 30).2.1.length h0 h1
    simp only [train] at h
    split at h
    · simp at h
    · simp only [Prod.mk.injEq] at h
      obtain ⟨-, -, h3⟩ := h
      obtain rfl : _ = m := by
        simpa using h3
      simp only [train_test_split, List.length_take, List.length_drop]
      rw [Nat.min_eq_left (Nat.sub_le _ _)]
      exact ⟨by omega, by omega⟩

/-- Witness for C3 at `X = [true]`, `y = [false]`, `t = 1/2`. -/
theorem claim_C3_witness :
    train_test_split [true] [false] (1 / 2 : ℚ) =
      ([true].take (⌊(1 - (1 / 2 : ℚ)) * (([true] : List Bool).length : ℚ)⌋).toNat,
       [true].drop (⌊(1 - (1 / 2 : ℚ)) * (([true] : List Bool).length : ℚ)⌋).toNat,
       [false].take (⌊(1 - (1 / 2 : ℚ)) * (([true] : List Bool).length : ℚ)⌋).toNat,
       [false].drop (⌊(1 - (1 / 2 : ℚ)) * (([true] : List Bool).length : ℚ)⌋).toNat) :=
  (claim_C3 [true] [false] (1 / 2 : ℚ) (by norm_num) (by norm_num)).1

/-! ## Claim C4: the feature/target builder -/

/-- The indicator columns installed by `addFeatureColumns`, by name. -/
theorem addFeatureColumns_extra (f : Frame) :
    (addFeatureColumns f).extra = fun s =>
      if s = r"volatility" then some (rollingStd f.close 20)
      else if s = r"price_change" then some (pctChange f.close)
      else if s = r"volume_ratio" then some (volumeRatio f.volume (rollingMean f.volume 20))
      else if s = r"volume_sma" then some (rollingMean f.volume 20)
      else if s = r"rsi" then some (calculate_rsi f.close 14)
      else if s = r"ema_26" then some (ewmMean f.close 26)
      else if s = r"ema_12" then some (ewmMean f.close 12)
      else if s = r"sma_20" then some (rollingMean f.close 20)
      else if s = r"sma_10" then some (rollingMean f.close 10)
      else if s = r"sma_5" then some (rollingMean f.close 5)
      else f.extra s := by
  funext s
  simp [addFeatureColumns, setCol]

/-- Every feature row built over the mutated frame has exactly
`3 × 9 = 27` entries. -/
theorem featureRow_length (f : Frame) (lookback i : ℕ) :
    (featureRow (addFeatureColumns f) lookback i).length = 27 := by
  simp [featureRow, featureColumnNames, addFeatureColumns_extra, windowAgg]

/-- C4: for `lookback ≥ 1` (the source indexes `values[-1]`, so an empty
window would fail), the builder produces exactly one pair for each position
`i ∈ [lookback, n-2]` — pair `j` belongs to position `lookback + j` — and
no others; each feature vector has length 27 and the target at position
`i` is `(close[i+1] - close[i]) / close[i]`. -/
theorem claim_C4 (f : Frame) (lookback : ℕ) (_hlb : 1 ≤ lookback) :
    (prepare_features f lookback).2.1.length = f.close.length - 1 - lookback ∧
    (prepare_features f lookback).2.2.length = f.close.length - 1 - lookback ∧
    ∀ j, j < f.close.length - 1 - lookback →
      (∃ row, (prepare_features f lookback).2.1[j]? = some row ∧ row.length = 27) ∧
      (∃ a b, f.close[lookback + j]? = some a ∧
              f.close[lookback + j + 1]? = some b ∧
              (prepare_features f lookback).2.2[j]? = some ((b - a) / a)) := by
  refine ⟨by simp [prepare_features], by simp [prepare_features], ?_⟩
  intro j hj
  obtain ⟨a, ha⟩ : ∃ a, f.close[lookback + j]? = some a :=
    ⟨_, List.getElem?_eq_getElem (by omega)⟩
  obtain ⟨b, hb⟩ : ∃ b, f.close[lookback + j + 1]? = some b :=
    ⟨_, List.getElem?_eq_getElem (by omega)⟩
  constructor
  · refine ⟨featureRow (addFeatureColumns f) lookback (lookback + j), ?_,
      featureRow_length f lookback (lookback + j)⟩
    simp only [prepare_features]
    rw [List.getElem?_map, List.getElem?_range' _ _ hj]
    simp
  · refine ⟨a, b, ha, hb, ?_⟩
    simp only [prepare_features]
    rw [List.getElem?_map, List.getElem?_range' _ _ hj]
    simp only [Option.map_some', Option.some.injEq]
    rw [show lookback + 1 * j = lookback + j by omega]
    rw [targetAt, ha, hb]

/-- A tiny concrete frame used by the witnesses. -/
def frame3 : Frame :=
  ⟨[1, 2, 3], [1, 1, 1], fun _ => none⟩

/-- Witness for C4 on a 3-bar frame with `lookback = 1`: one pair is
produced, and its feature row has 27 entries. -/
theorem claim_C4_witness :
    ∃ row, (prepare_features frame3 1).2.1[0]? = some row ∧ row.length = 27 :=
  ((claim_C4 frame3 1 (by decide)).2.2 0 (by decide)).1

/-! ## Claim C9: the frame effect of prepare_features -/

/-- C9: `prepare_features` (called by both `train` and `predict`) installs
the derived indicator columns in the caller's frame in place — the mutated
frame differs from any input frame that did not already carry the columns —
and both `train` and `predict` (once a model is installed, so that
`predict` reaches the feature-building step) hand back exactly that mutated
frame. -/
theorem claim_C9 (p : StockPredictor) (fitF : RFFit) (t : ℚ) (f : Frame)
    (m : RandomForest) (hf : f.extra r"sma_5" = none) (hm : p.model = some m) :
    (∀ name ∈ writtenColumnNames, ((prepare_features f 30).1.extra name).isSome) ∧
    (prepare_features f 30).1 ≠ f ∧
    (train p fitF f t).2.1 = (prepare_features f 30).1 ∧
    (predict p f).2.1 = (prepare_features f 30).1 := by
  have h5 : ((prepare_features f 30).1).extra r"sma_5" = some (rollingMean f.close 5) := by
    simp only [prepare_features]
    rw [addFeatureColumns_extra]
    simp
  refine ⟨?_, ?_, ?_, ?_⟩
  · intro name hn
    simp only [writtenColumnNames, List.mem_cons, List.not_mem_nil, or_false] at hn
    simp only [prepare_features]
    rw [addFeatureColumns_extra]
    rcases hn with rfl | rfl | rfl | rfl | rfl | rfl | rfl | rfl | rfl | rfl <;> simp
  · intro heq
    rw [heq, hf] at h5
    exact Option.noConfusion h5
  · simp only [train]
    split <;> rfl
  · simp only [predict, hm]
    cases (prepare_features f 30).2.1.getLast? <;>
      cases p.scalerParams <;>
        cases f.close.getLast? <;> rfl

/-- A trivial stand-in for the fitted ensemble regressor, used by the
witnesses. -/
def dummyForest : RandomForest := ⟨fun _ => 0, [1]⟩

/-- A trivial fitting function for the witnesses. -/
def dummyRFFit : RFFit := fun _ _ => dummyForest

/-- An already-trained predictor state for the witnesses. -/
def trainedDummy : StockPredictor := ⟨some dummyForest, some [], []⟩

/-- Witness for C9: on a concrete 3-bar frame without indicator columns the
feature-building call changes the frame. -/
theorem claim_C9_witness : (prepare_features frame3 30).1 ≠ frame3 :=
  (claim_C9 trainedDummy dummyRFFit 0 frame3 dummyForest rfl rfl).2.1

/-! ## Claims C1, C2, C10: the train/predict contract -/

/-- C1: `predict` before any successful `train` (i.e. while no model is
installed) raises the not-trained error; after a successful `train`, every
`predict` call that returns a prediction returns a confidence in `[0, 95]`
and a direction that is `"up"` or `"down"`.  The fitting procedure is
quantified over, assuming only the library convention that feature
importances form a nonempty list of nonnegative scores. -/
theorem claim_C1 (fitF : RFFit)
    (hImp : ∀ X y, (fitF X y).featureImportances ≠ [] ∧
        ∀ q ∈ (fitF X y).featureImportances, 0 ≤ q) :
    (∀ (p : StockPredictor) (f : Frame), p.model = none →
        (predict p f).2.2 = .error .notTrained) ∧
    (∀ (p : StockPredictor) (f : Frame) (t : ℚ) (p2 : StockPredictor) (fr : Frame)
        (m : TrainMetrics), train p fitF f t = (p2, fr, .ok m) →
        ∀ (f2 : Frame) (p3 : StockPredictor) (fr2 : Frame) (pr : Prediction),
          predict p2 f2 = (p3, fr2, .ok pr) →
          (0 ≤ pr.confidence ∧ pr.confidence ≤ 95) ∧
          (pr.direction = r"up" ∨ pr.direction = r"down")) := by
  constructor
  · intro p f hm
    simp [predict, hm]
  · intro p f t p2 fr m htr f2 p3 fr2 pr hpr
    simp only [train] at htr
    split at htr
    · simp at htr
    · simp only [Prod.mk.injEq] at htr
      obtain ⟨h1, -, -⟩ := htr
      subst h1
      simp only [predict] at hpr
      split at hpr
      · simp at hpr
      · split at hpr
        · simp at hpr
        · simp only [Prod.mk.injEq, Except.ok.injEq] at hpr
          obtain ⟨-, -, h3⟩ := hpr
          subst h3
          constructor
          · constructor
            · exact le_min
                (mul_nonneg (npMean_nonneg (hImp _ _).2) (by norm_num))
                (by norm_num)
            · exact min_le_right _ _
          · dsimp only
            split <;> simp

/-- Witness for C1: a freshly constructed predictor refuses to predict. -/
theorem claim_C1_witness :
    (predict StockPredictor.initial frame3).2.2 = .error .notTrained := by
  have hImp : ∀ X y, (dummyRFFit X y).featureImportances ≠ [] ∧
      ∀ q ∈ (dummyRFFit X y).featureImportances, 0 ≤ q := by
    intro X y
    refine ⟨by simp [dummyRFFit, dummyForest], ?_⟩
    intro q hq
    simp only [dummyRFFit, dummyForest, List.mem_singleton] at hq
    rw [hq]
    norm_num
  exact (claim_C1 dummyRFFit hImp).1 StockPredictor.initial frame3 rfl

/-- C2: `train` fails with the insufficient-data error exactly when fewer
than 50 feature rows are derivable from the series (the derivable row count
being `n - 1 - lookback` with the default lookback of 30); with at least 50
rows it succeeds, installs a model, and a subsequent `predict` can no
longer fail with the not-trained error. -/
theorem claim_C2 (p : StockPredictor) (fitF : RFFit) (f : Frame) (t : ℚ) :
    (prepare_features f 30).2.1.length = f.close.length - 1 - 30 ∧
    ((prepare_features f 30).2.1.length < 50 →
       (train p fitF f t).2.2 = .error .insufficientData) ∧
    (50 ≤ (prepare_features f 30).2.1.length →
       (∃ m, (train p fitF f t).2.2 = .ok m) ∧
       ((train p fitF f t).1.model).isSome ∧
       ∀ f2, (predict ((train p fitF f t).1) f2).2.2 ≠ .error .notTrained) := by
  refine ⟨by simp [prepare_features], ?_, ?_⟩
  · intro h
    simp only [train]
    rw [if_pos h]
  · intro h
    simp only [train]
    rw [if_neg (by omega)]
    refine ⟨⟨_, rfl⟩, rfl, ?_⟩
    intro f2
    simp only [predict]
    cases (prepare_features f2 30).2.1.getLast? <;>
      cases f2.close.getLast? <;> simp

/-- Witness for C2: a 3-bar frame yields zero feature rows, so training
fails with the insufficient-data error. -/
theorem claim_C2_witness :
    (train StockPredictor.initial dummyRFFit frame3 (1 / 5)).2.2 =
      .error .insufficientData :=
  (claim_C2 StockPredictor.initial dummyRFFit frame3 (1 / 5)).2.1 (by decide)

/-- C10: when `train` fails with the insufficient-data error, the installed
model and the fitted scaler state are untouched (in particular a
never-trained predictor stays untrained), and any subsequent `predict`
returns exactly the frame and the outcome it would have returned before the
failed call. -/
theorem claim_C10 (p : StockPredictor) (fitF : RFFit) (f : Frame) (t : ℚ)
    (h : (train p fitF f t).2.2 = .error .insufficientData) :
    (train p fitF f t).1.model = p.model ∧
    (train p fitF f t).1.scalerParams = p.scalerParams ∧
    (p.model = none → (train p fitF f t).1.model = none) ∧
    ∀ f2, (predict ((train p fitF f t).1) f2).2.1 = (predict p f2).2.1 ∧
          (predict ((train p fitF f t).1) f2).2.2 = (predict p f2).2.2 := by
  by_cases hc : (prepare_features f 30).2.1.length < 50
  · have htr : (train p fitF f t).1 = { p with feature_columns := featureColumnNames } := by
      simp only [train]
      rw [if_pos hc]
    rw [htr]
    refine ⟨rfl, rfl, fun hm => hm, ?_⟩
    intro f2
    simp only [predict]
    cases p.model <;>
      cases (prepare_features f2 30).2.1.getLast? <;>
        cases p.scalerParams <;>
          cases f2.close.getLast? <;> exact ⟨rfl, rfl⟩
  · exfalso
    simp only [train] at h
    rw [if_neg hc] at h
    exact Except.noConfusion h

/-- Witness for C10: the failed training call on a 3-bar frame leaves the
fresh predictor untrained. -/
theorem claim_C10_witness :
    (train StockPredictor.initial dummyRFFit frame3 (1 / 5)).1.model = none := by
  have h : (train StockPredictor.initial dummyRFFit frame3 (1 / 5)).2.2 =
      .error .insufficientData := by
    simp only [train]
    rw [if_pos (by decide)]
  exact (claim_C10 StockPredictor.initial dummyRFFit frame3 (1 / 5) h).2.2.1 rfl

end StockBro
